import Mathlib

/-!
Formal model of the layout engine in
`src/room-allocation/src/main/resources/visualize_map.py` (`create_room_map`).

The engine consumes a list of rooms (each optionally holding a course) and a
list of unallocated courses, and emits a geometric layout: a top-level grid of
regions (one per room type, plus one for the overflow list), fixed-size room
cards packed into each region, utilization discs colored by a diverging
colormap, and an overflow region of course cards.  All geometry is modelled
over `ℚ` (the Python constants 1.8, 2.2, 0.5, 1.2, 0.8, 2.5 become exact
rationals); color channels are modelled on the 0..255 scale of the ColorBrewer
data underlying matplotlib's `RdYlGn` colormap.
-/

/-- An assigned course: `name` and `size` (`visualize_map.py`, consumed via
`room['course']`). -/
structure Course where
  name : String
  size : Nat
deriving DecidableEq

/-- A room record: `name`, `type` (category label), `capacity`, and an optional
assigned course (`visualize_map.py`, rows of `data['allocation']['rooms']`). -/
structure Room where
  name : String
  type : String
  capacity : Nat
  course : Option Course
deriving DecidableEq

/-- An unallocated course (`data['allocation'].get('unallocatedCourses', [])`). -/
structure UCourse where
  name : String
  size : Nat
deriving DecidableEq

/-- Utilization of a room, line 18-21 of `visualize_map.py`:
`course.size / capacity` when occupied, else 0. -/
def utilization (r : Room) : ℚ :=
  match r.course with
  | some c => (c.size : ℚ) / (r.capacity : ℚ)
  | none => 0

/-- Python's `int()` applied to a rational: truncation toward zero
(line 99, `int(utilization * 100)`). -/
def pyInt (q : ℚ) : ℤ := if 0 ≤ q then ⌊q⌋ else -⌊-q⌋

/-- Ceiling division on naturals, modelling Python's `math.ceil(a / b)` for
nonnegative integers `a` and positive `b`. -/
def ceilDiv (a b : Nat) : Nat := (a + b - 1) / b

/-- A kernel-reducible decidability instance for `≤` on `String`, routed
through the underlying character lists (the core iterator-based instance does
not reduce).  Python compares strings by code points, which agrees with this
order. -/
def strLeDecidable : DecidableRel (α := String) (· ≤ ·) := fun a b =>
  decidable_of_iff (a.toList ≤ b.toList) String.le_iff_toList_le.symm

attribute [instance] strLeDecidable

/-- Distinct elements of a list in order of first occurrence. -/
def firstOccsAux (seen : List String) : List String → List String
  | [] => []
  | t :: ts => if t ∈ seen then firstOccsAux seen ts else t :: firstOccsAux (t :: seen) ts

/-- Distinct elements of a list in order of first occurrence (the order in
which each room type is first discovered in the input). -/
def firstOccs (ts : List String) : List String := firstOccsAux [] ts

/-- The iteration keys of `df.groupby('type')` (line 24): the distinct `type`
values of the input rooms, sorted ascending — pandas `groupby` sorts group keys
by default, so `type_counts.items()` iterates them in sorted order. -/
def categoryKeys (rooms : List Room) : List String :=
  List.insertionSort (· ≤ ·) (firstOccs (rooms.map Room.type))

/-- An RGB color on the 0..255 channel scale. -/
structure Color3 where
  r : ℚ
  g : ℚ
  b : ℚ
deriving DecidableEq

/-- The eleven ColorBrewer anchor colors of matplotlib's `RdYlGn` colormap
(`plt.cm.RdYlGn`, line 28), listed from input 0 to input 1: the scale starts
at the red end `#a50026` and ends at the green end `#006837`. -/
def RdYlGnAnchors : List Color3 :=
  [⟨165, 0, 38⟩, ⟨215, 48, 39⟩, ⟨244, 109, 67⟩, ⟨253, 174, 97⟩, ⟨254, 224, 139⟩,
   ⟨255, 255, 191⟩, ⟨217, 239, 139⟩, ⟨166, 217, 106⟩, ⟨102, 189, 99⟩, ⟨26, 152, 80⟩,
   ⟨0, 104, 55⟩]

/-- Linear interpolation. -/
def lerp (a b t : ℚ) : ℚ := a + (b - a) * t

/-- Componentwise linear interpolation of colors. -/
def lerpColor (a b : Color3) (t : ℚ) : Color3 :=
  ⟨lerp a.r b.r t, lerp a.g b.g t, lerp a.b b.b t⟩

/-- Sampling matplotlib's `RdYlGn` colormap at ratio `u` (`cmap(utilization)`,
line 90): inputs are clamped to `[0,1]` and interpolated piecewise linearly
between the eleven anchors; `u = 0` yields the first anchor (the red end) and
`u = 1` the last anchor (the green end). -/
def RdYlGn (u : ℚ) : Color3 :=
  if u ≤ 0 then ⟨165, 0, 38⟩
  else if 1 ≤ u then ⟨0, 104, 55⟩
  else
    let t := u * 10
    let k := (⌊t⌋).toNat
    lerpColor (RdYlGnAnchors.getD k ⟨0, 104, 55⟩) (RdYlGnAnchors.getD (k + 1) ⟨0, 104, 55⟩)
      (t - (k : ℚ))

/-- Fixed card width, line 46: `room_width = 1.8`. -/
def room_width : ℚ := 9/5

/-- Fixed card height, line 47: `room_height = 1.8`. -/
def room_height : ℚ := 9/5

/-- Fixed spacing between room cards, line 48: `spacing = 2.2`. -/
def spacing : ℚ := 11/5

/-- Maximum number of room cards per row, line 49: `max_cols = 5`. -/
def max_cols : Nat := 5

/-- Columns of the per-category card grid, line 62: `min(max_cols, n_rooms)`. -/
def grid_cols (n : Nat) : Nat := min max_cols n

/-- Rows of the per-category card grid, line 63: `ceil(n_rooms / grid_cols)`. -/
def grid_rows (n : Nat) : Nat := ceilDiv n (grid_cols n)

/-- The utilization disc drawn on an occupied card (lines 88-102): center,
radius 0.25, fill color from the colormap, the percentage label
`int(utilization * 100)`, and the label ink choice
(`black if utilization > 0.5 else white`). -/
structure Disc where
  cx : ℚ
  cy : ℚ
  radius : ℚ
  color : Color3
  pctLabel : ℤ
  inkBlack : Bool
deriving DecidableEq

/-- One room card: its rectangle (lines 68-74), the room it renders, and the
optional utilization disc. -/
structure Card where
  x : ℚ
  y : ℚ
  w : ℚ
  h : ℚ
  room : Room
  disc : Option Disc
deriving DecidableEq

/-- The card built for room `r` at index `i` of a category grid with
`gcols` columns and `grows` rows (lines 66-102):
`x = (i % gcols) * spacing`, `y = (grows - 1 - i // gcols) * spacing`
(the row index is computed in `ℤ` exactly as Python's integer arithmetic). -/
def mkCard (gcols grows i : Nat) (r : Room) : Card :=
  let x : ℚ := ((i % gcols : Nat) : ℚ) * spacing
  let y : ℚ := (((grows : ℤ) - 1 - ((i / gcols : Nat) : ℤ) : ℤ) : ℚ) * spacing
  { x := x, y := y, w := room_width, h := room_height, room := r,
    disc :=
      match r.course with
      | none => none
      | some _ =>
        let u := utilization r
        some { cx := x + room_width / 2, cy := y + 7/10, radius := 1/4,
               color := RdYlGn u, pctLabel := pyInt (u * 100),
               inkBlack := decide ((1 : ℚ)/2 < u) } }

/-- The card packer: cards for an ordered list of same-category rooms, in input
order, on the `grid_cols × grid_rows` grid (the loop of lines 66-102). -/
def packCards (rs : List Room) : List Card :=
  rs.enum.map (fun p => mkCard (grid_cols rs.length) (grid_rows rs.length) p.1 p.2)

/-- One region of the top-level grid: the grid cell it occupies
(`row = idx // num_cols`, `col = idx % num_cols`, lines 53-54), its room type,
its packed cards, and its axis upper limits (lines 110-111:
`xlim` up to `grid_cols * spacing + 0.5`, `ylim` up to
`grid_rows * spacing + 0.5`; both lower limits are the constant `-0.5`). -/
structure Region where
  row : Nat
  col : Nat
  roomType : String
  cards : List Card
  xmax : ℚ
  ymax : ℚ
deriving DecidableEq

/-- One unallocated-course card (lines 134-146): rectangle of width 2.5 and
height 0.8 at `x = (i % 8) * 3`, `y = (rows_needed - 1 - i // 8) * 1.2`. -/
structure OverflowCard where
  x : ℚ
  y : ℚ
  w : ℚ
  h : ℚ
  courseName : String
deriving DecidableEq

/-- The overflow paginator: cards for the unallocated courses, 8 per row
(lines 130-146). -/
def overflowCards (un : List UCourse) : List OverflowCard :=
  let rowsNeeded := ceilDiv un.length 8
  un.enum.map (fun p =>
    { x := ((p.1 % 8 : Nat) : ℚ) * 3,
      y := ((((rowsNeeded : ℤ) - 1 - ((p.1 / 8 : Nat) : ℤ) : ℤ)) : ℚ) * (6/5),
      w := 5/2, h := 4/5, courseName := p.2.name })

/-- The overflow region (lines 125-156): its cards and its axis upper limits
(line 154: `xlim` up to `courses_per_row * 3 + 0.5`, a fixed full width;
line 155: `ylim` up to `rows_needed * 1.2 + 0.5`). -/
structure OverflowRegion where
  cards : List OverflowCard
  xmax : ℚ
  ymax : ℚ
deriving DecidableEq

/-- A legend descriptor (a full-range gradient bar over an interval).  The
source never constructs one: `create_room_map` contains no colorbar or legend
call, so the figure below carries an empty list of legends. -/
structure Legend where
  lo : ℚ
  hi : ℚ
deriving DecidableEq

/-- The composed figure emitted by `create_room_map`: the top-level grid shape
(lines 32-43), the figure width (line 39), the per-type regions, the optional
overflow region, and the legends attached (none in the source). -/
structure Figure where
  numRows : Nat
  numCols : Nat
  figWidth : ℚ
  regions : List Region
  overflow : Option OverflowRegion
  legends : List Legend
deriving DecidableEq

/-- Top-level column count, line 32: `3 if has_unallocated else 2`. -/
def num_cols (has_unallocated : Bool) : Nat := if has_unallocated then 3 else 2

/-- Top-level row count, lines 35-36:
`ceil((num_types + (1 if has_unallocated else 0)) / num_cols)` — the divisor is
the full column count `num_cols`. -/
def num_rows (k : Nat) (has_unallocated : Bool) : Nat :=
  ceilDiv (k + (if has_unallocated then 1 else 0)) (num_cols has_unallocated)

/-- The region built for the category at index `p.1` with type label `p.2`
(the loop body of lines 52-122): grid cell `(idx // num_cols, idx % num_cols)`,
the cards of the rooms of that type in input order, and axis upper limits
fitting the card grid exactly (lines 110-111). -/
def mkRegion (nc : Nat) (rooms : List Room) (p : Nat × String) : Region :=
  let type_rooms := rooms.filter (fun r => decide (r.type = p.2))
  let n_rooms := type_rooms.length
  { row := p.1 / nc, col := p.1 % nc, roomType := p.2,
    cards := packCards type_rooms,
    xmax := ((grid_cols n_rooms : Nat) : ℚ) * spacing + 1/2,
    ymax := ((grid_rows n_rooms : Nat) : ℚ) * spacing + 1/2 }

/-- The layout engine `create_room_map` (lines 12-162), as the geometric layout
it hands to the rendering backend. -/
def create_room_map (rooms : List Room) (unallocated : List UCourse) : Figure :=
  let types := categoryKeys rooms
  let has_unallocated := decide (0 < unallocated.length)
  let nc := num_cols has_unallocated
  let regions := types.enum.map (mkRegion nc rooms)
  let overflow : Option OverflowRegion :=
    if has_unallocated then
      some { cards := overflowCards unallocated,
             xmax := (8 : ℚ) * 3 + 1/2,
             ymax := ((ceilDiv unallocated.length 8 : Nat) : ℚ) * (6/5) + 1/2 }
    else none
  { numRows := num_rows types.length has_unallocated,
    numCols := nc,
    figWidth := if has_unallocated then 20 else 15,
    regions := regions,
    overflow := overflow,
    legends := [] }

/-- Following the spec's words (§4.4), for comparison with `num_rows`:
rows = `ceil((k + (1 if overflow else 0)) / columnsUsedByCategories)` where
`columnsUsedByCategories` is `columns - 1` when overflow is present, else
`columns`. -/
def specRows (k : Nat) (overflow : Bool) : Nat :=
  let columns := num_cols overflow
  let used := if overflow then columns - 1 else columns
  ceilDiv (k + (if overflow then 1 else 0)) used

/-- Following the spec's words (§4.5), for comparison with `categoryKeys`:
categories iterated in the stable order each distinct room type is first
discovered in the input. -/
def specCategoryOrder (rooms : List Room) : List String :=
  firstOccs (rooms.map Room.type)

/-- Bounding-box overlap of two room cards (open intersection test). -/
def cardsOverlap (a b : Card) : Prop :=
  a.x < b.x + b.w ∧ b.x < a.x + a.w ∧ a.y < b.y + b.h ∧ b.y < a.y + a.h

/-- Bounding-box overlap of two overflow cards (open intersection test). -/
def ocardsOverlap (a b : OverflowCard) : Prop :=
  a.x < b.x + b.w ∧ b.x < a.x + a.w ∧ a.y < b.y + b.h ∧ b.y < a.y + a.h

/-- Placeholder room used as a `getD` default. -/
def dummyRoom : Room := ⟨"", "", 0, none⟩

/-- Placeholder card used as a `getD` default. -/
def dummyCard : Card := mkCard 1 1 0 dummyRoom

/-- Placeholder overflow card used as a `getD` default. -/
def dummyOCard : OverflowCard := ⟨0, 0, 0, 0, ""⟩

/-- Two vacant rooms whose types arrive in the order tb, ta. -/
def roomsBA : List Room := [⟨"r1", "tb", 10, none⟩, ⟨"r2", "ta", 10, none⟩]

/-- Three vacant rooms of three distinct types. -/
def roomsABC : List Room := [⟨"r1", "ta", 10, none⟩, ⟨"r2", "tb", 10, none⟩, ⟨"r3", "tc", 10, none⟩]

/-- A single vacant room. -/
def oneRoom : List Room := [⟨"r1", "ta", 10, none⟩]

/-- A single unallocated course. -/
def oneCourse : List UCourse := [⟨"u1", 30⟩]

/-- Two rooms of one type. -/
def rooms2 : List Room := [⟨"r1", "t", 10, none⟩, ⟨"r2", "t", 12, none⟩]

/-- Two unallocated courses. -/
def un2 : List UCourse := [⟨"u1", 5⟩, ⟨"u2", 6⟩]

/-- Seven rooms of one type (two grid rows at five columns). -/
def rooms7 : List Room :=
  [⟨"r1", "t", 10, none⟩, ⟨"r2", "t", 10, none⟩, ⟨"r3", "t", 10, none⟩,
   ⟨"r4", "t", 10, none⟩, ⟨"r5", "t", 10, none⟩, ⟨"r6", "t", 10, none⟩,
   ⟨"r7", "t", 10, none⟩]

/-- A room occupied at utilization 999/1000. -/
def room999 : Room := ⟨"r", "t", 1000, some ⟨"c", 999⟩⟩

/-- C1: the claim reads the scale as green at `u = 0` and red at `u = 1`.  The
code's own comment (line 28) documents that intent, but `plt.cm.RdYlGn` runs
red-to-green as its input grows: sampling the code's colormap yields the pure
red end `(165, 0, 38)` at `u = 0` and the pure green end `(0, 104, 55)` at
`u = 1` — the opposite of the claim. -/
theorem C1_color_mapper_anchors :
    RdYlGn 0 = ⟨165, 0, 38⟩ ∧ RdYlGn 1 = ⟨0, 104, 55⟩ ∧
    (⟨165, 0, 38⟩ : Color3) ≠ ⟨0, 104, 55⟩ := by
  refine ⟨by norm_num [RdYlGn], by norm_num [RdYlGn], by decide⟩

/-- C2 counterexample: for `k = 2` categories with overflow present the code
computes `ceil((2+1)/3) = 1` top-level row, while the claim's formula
`ceil((2+1)/(columns-1)) = ceil(3/2)` demands 2. -/
theorem C2_counterexample :
    num_rows 2 true = 1 ∧ specRows 2 true = 2 ∧ (1 : Nat) ≠ 2 := by decide

/-- C2 amended: top-level rows are `ceil((k + (1 if overflow else 0)) / columns)`
where the divisor is the full top-level column count — 3 when overflow is
present, 2 otherwise — not `columns - 1`. -/
theorem C2_rows_formula (rooms : List Room) (un : List UCourse) (k : Nat)
    (hk : (categoryKeys rooms).length = k) :
    (create_room_map rooms un).numRows
      = ceilDiv (k + (if 0 < un.length then 1 else 0)) (if 0 < un.length then 3 else 2) := by
  subst hk
  by_cases h : 0 < un.length <;>
    simp [create_room_map, num_rows, num_cols, h]

/-- C2 witness: two categories and one unallocated course give
`ceil(3/3) = 1` top-level row. -/
theorem C2_witness :
    (create_room_map roomsBA oneCourse).numRows
      = ceilDiv (2 + (if 0 < oneCourse.length then 1 else 0))
          (if 0 < oneCourse.length then 3 else 2) :=
  C2_rows_formula roomsBA oneCourse 2 (by decide)

/-- C3: with three categories and a non-empty unallocated list, the code
assigns categories to cells over all `num_cols = 3` columns in row-major order
(`col = idx % num_cols`, line 54), so the third category lands in the last
column — the column the overflow region also spans (`gs[:, -1]`, line 126).
The claim (and the code's own reservation of that column) says no category is
ever placed there. -/
theorem C3_category_in_reserved_column :
    (create_room_map roomsABC oneCourse).numCols = 3 ∧
    ((create_room_map roomsABC oneCourse).regions.map Region.col) = [0, 1, 2] ∧
    (create_room_map roomsABC oneCourse).overflow.isSome = true := by
  refine ⟨by decide, by decide, by decide⟩

/-- C4 counterexample: with input types arriving in the order tb, ta, the code
iterates categories as ta, tb (pandas `groupby` sorts its keys), not in
first-discovery order tb, ta. -/
theorem C4_counterexample :
    categoryKeys roomsBA = ["ta", "tb"] ∧ specCategoryOrder roomsBA = ["tb", "ta"] ∧
    (["ta", "tb"] : List String) ≠ ["tb", "ta"] := by
  refine ⟨by decide, by decide, by decide⟩

/-- C4 amended: the Composition Driver iterates categories in ascending sorted
order of the type label — a permutation of the distinct types in
first-discovery order, but sorted, not stable. -/
theorem C4_sorted_iteration (rooms : List Room) :
    List.Sorted (· ≤ ·) (categoryKeys rooms) ∧
    (categoryKeys rooms).Perm (specCategoryOrder rooms) :=
  ⟨List.sorted_insertionSort _ _, List.perm_insertionSort _ _⟩

/-- C5 counterexample: on a concrete input the composed layout attaches no
legend at all — `create_room_map` contains no colorbar or legend call — so the
layout does not contain exactly one shared legend. -/
theorem C5_counterexample : (create_room_map roomsABC []).legends.length ≠ 1 := by decide

/-- C5 amended: the composed layout contains no legend: for every input the
figure's legend list is empty. -/
theorem C5_no_legend (rooms : List Room) (un : List UCourse) :
    (create_room_map rooms un).legends = [] := rfl

/-- C6 counterexample: with a single unallocated course (`m = 1`) the overflow
region's x-extent is the fixed full width `8 * 3 + 0.5 = 24.5`
(line 154 uses `courses_per_row`, not the actual number of columns), not the
extent `min(1, 8) * 3 + 0.5 = 3.5` of the one occupied column. -/
theorem C6_counterexample :
    ((create_room_map oneRoom oneCourse).overflow.map OverflowRegion.xmax) = some (49/2) ∧
    ¬((49 : ℚ)/2 = ((min oneCourse.length 8 : Nat) : ℚ) * 3 + 1/2) := by
  constructor
  · norm_num [create_room_map, oneCourse]
  · norm_num [oneCourse]

/-- C6 amended: for every non-empty unallocated list the overflow region's
bounds have a fixed width of `perRow = 8` columns (`xmax = 24.5` independent of
`m`) and a height that exactly fits `ceil(m / 8)` rows
(`ymax = ceil(m/8) * 1.2 + 0.5`). -/
theorem C6_overflow_bounds (rooms : List Room) (un : List UCourse) (h : un ≠ []) :
    (create_room_map rooms un).overflow
      = some { cards := overflowCards un, xmax := 49/2,
               ymax := ((ceilDiv un.length 8 : Nat) : ℚ) * (6/5) + 1/2 } := by
  have h0 : 0 < un.length := List.length_pos.mpr h
  simp [create_room_map, h0]
  norm_num

/-- C6 witness: the amended bounds at one room and one unallocated course. -/
theorem C6_witness :
    (create_room_map oneRoom oneCourse).overflow
      = some { cards := overflowCards oneCourse, xmax := 49/2,
               ymax := ((ceilDiv oneCourse.length 8 : Nat) : ℚ) * (6/5) + 1/2 } :=
  C6_overflow_bounds oneRoom oneCourse (by decide)

/-- C8: for every `n ≥ 1` the card grid `grid_cols n = min 5 n`,
`grid_rows n = ceil(n / grid_cols n)` has enough cells for all `n` rooms and
has no entirely empty row. -/
theorem C8_grid_covers (n : Nat) (h : 1 ≤ n) :
    n ≤ grid_cols n * grid_rows n ∧ grid_cols n * (grid_rows n - 1) < n := by
  rcases le_or_lt n 4 with h4 | h5
  · interval_cases n <;> refine ⟨by decide, by decide⟩
  · have h5' : 5 ≤ n := h5
    have hc : grid_cols n = 5 := by
      simp only [grid_cols, max_cols]
      omega
    have hr : grid_rows n = (n + 5 - 1) / 5 := by
      simp only [grid_rows, ceilDiv, hc]
    rw [hc, hr]
    omega

/-- C8 witness: at `n = 7` the grid is `5 × 2`, which covers 7 rooms with no
empty row. -/
theorem C8_witness :
    1 ≤ 7 ∧ (7 ≤ grid_cols 7 * grid_rows 7 ∧ grid_cols 7 * (grid_rows 7 - 1) < 7) :=
  ⟨by decide, C8_grid_covers 7 (by decide)⟩

/-- Utilization is nonnegative. -/
theorem utilization_nonneg (r : Room) : 0 ≤ utilization r := by
  unfold utilization
  cases r.course with
  | none => exact le_refl 0
  | some c => positivity

/-- C10: the percentage label painted inside the utilization disc is
`int(u * 100)` — truncation toward zero: any occupied room with utilization
strictly below 1 is labeled at most 99, and utilization at least 1 is labeled
at least 100. -/
theorem C10_pct_truncation (r : Room) (co : Course) (h : r.course = some co)
    (_hc : 0 < r.capacity) (gc gr i : Nat) :
    ((mkCard gc gr i r).disc.map Disc.pctLabel) = some (pyInt (utilization r * 100)) ∧
    (utilization r < 1 → pyInt (utilization r * 100) ≤ 99) ∧
    (1 ≤ utilization r → 100 ≤ pyInt (utilization r * 100)) := by
  have h0 : 0 ≤ utilization r * 100 := mul_nonneg (utilization_nonneg r) (by norm_num)
  refine ⟨by simp [mkCard, h], ?_, ?_⟩
  · intro hu
    rw [pyInt, if_pos h0]
    have hlt : utilization r * 100 < 100 := by nlinarith [utilization_nonneg r]
    have : ⌊utilization r * 100⌋ < 100 := by
      rw [Int.floor_lt]
      exact_mod_cast hlt
    omega
  · intro hu
    rw [pyInt, if_pos h0]
    rw [Int.le_floor]
    push_cast
    nlinarith

/-- C10 witness: a room of capacity 1000 holding a course of size 999 has
utilization 999/1000 < 1, and its card's disc is labeled
`pyInt(999/1000 * 100) = 99`. -/
theorem C10_witness :
    ((mkCard 5 1 0 room999).disc.map Disc.pctLabel)
        = some (pyInt (utilization room999 * 100)) ∧
    utilization room999 < 1 ∧ pyInt (utilization room999 * 100) = 99 := by
  refine ⟨(C10_pct_truncation room999 ⟨"c", 999⟩ rfl (by decide) 5 1 0).1, ?_, ?_⟩
  · norm_num [utilization, room999]
  · norm_num [utilization, room999, pyInt]

/-- The packer yields one card per room. -/
theorem packCards_length (rs : List Room) : (packCards rs).length = rs.length := by
  simp [packCards]

/-- The paginator yields one card per unallocated course. -/
theorem overflowCards_length (un : List UCourse) : (overflowCards un).length = un.length := by
  simp [overflowCards]

/-- Indexing into the packed cards. -/
theorem packCards_getElem? (rs : List Room) (i : Nat) :
    (packCards rs)[i]? = (rs[i]?).map (mkCard (grid_cols rs.length) (grid_rows rs.length) i) := by
  rw [packCards, List.getElem?_map, List.getElem?_enum]
  cases rs[i]? <;> rfl

/-- The x coordinate of a packed card. -/
theorem mkCard_x (gc gr i : Nat) (r : Room) :
    (mkCard gc gr i r).x = ((i % gc : Nat) : ℚ) * spacing := rfl

/-- The y coordinate of a packed card. -/
theorem mkCard_y (gc gr i : Nat) (r : Room) :
    (mkCard gc gr i r).y = (((gr : ℤ) - 1 - ((i / gc : Nat) : ℤ) : ℤ) : ℚ) * spacing := rfl

/-- The width of a packed card. -/
theorem mkCard_w (gc gr i : Nat) (r : Room) : (mkCard gc gr i r).w = room_width := rfl

/-- The height of a packed card. -/
theorem mkCard_h (gc gr i : Nat) (r : Room) : (mkCard gc gr i r).h = room_height := rfl

/-- The room rendered by a packed card. -/
theorem mkCard_room (gc gr i : Nat) (r : Room) : (mkCard gc gr i r).room = r := rfl

/-- C7: the Card Packer uses `cols = min 5 n` and `rows = ceil(n / cols)`, and
card `i` (0-indexed, in input order) sits at `x = (i % cols) * S`,
`y = (rows - 1 - i / cols) * S` with `S = spacing`; consequently every card of
the first input row (`i < cols`) has maximal `y`, i.e. the first rooms in
input order appear in the top row. -/
theorem C7_card_positions (rs : List Room) (i j : Nat)
    (hi : i < rs.length) (hj : j < rs.length) :
    grid_cols rs.length = min 5 rs.length ∧
    grid_rows rs.length = ceilDiv rs.length (min 5 rs.length) ∧
    ((packCards rs)[i]?.map Card.x)
      = some (((i % grid_cols rs.length : Nat) : ℚ) * spacing) ∧
    ((packCards rs)[i]?.map Card.y)
      = some ((((grid_rows rs.length : Nat) : ℚ) - 1
            - ((i / grid_cols rs.length : Nat) : ℚ)) * spacing) ∧
    ((packCards rs)[i]?.map Card.room) = rs[i]? ∧
    (i < grid_cols rs.length →
      ((packCards rs)[j]?.map Card.y).getD 0 ≤ ((packCards rs)[i]?.map Card.y).getD 0) := by
  have hsome : rs[i]? = some rs[i] := List.getElem?_eq_getElem hi
  have hsomej : rs[j]? = some rs[j] := List.getElem?_eq_getElem hj
  refine ⟨rfl, rfl, ?_, ?_, ?_, ?_⟩
  · rw [packCards_getElem?, hsome, Option.map_map]
    simp [mkCard_x, Function.comp]
  · rw [packCards_getElem?, hsome]
    simp only [Option.map_map, Option.map_some', Function.comp_apply, mkCard_y]
    congr 1
    generalize i / grid_cols rs.length = d
    generalize grid_rows rs.length = g
    push_cast
    ring
  · rw [packCards_getElem?, hsome]
    simp [mkCard_room, Function.comp]
  · intro hcols
    rw [packCards_getElem?, packCards_getElem?, hsome, hsomej]
    simp only [Option.map_map, Option.map_some', Function.comp_apply, Option.getD_some, mkCard_y]
    have hdiv : i / grid_cols rs.length = 0 := Nat.div_eq_of_lt hcols
    rw [hdiv]
    have hsp : (0 : ℚ) ≤ spacing := by norm_num [spacing]
    apply mul_le_mul_of_nonneg_right _ hsp
    generalize j / grid_cols rs.length = d
    generalize grid_rows rs.length = g
    push_cast
    have hd : (0 : ℚ) ≤ (d : ℚ) := by positivity
    linarith

/-- C7 witness: in a seven-room category (`cols = 5`, `rows = 2`) card 3 sits
at `x = 3 * spacing` in the top row. -/
theorem C7_witness :
    ((packCards rooms7)[3]?.map Card.x)
      = some (((3 % grid_cols rooms7.length : Nat) : ℚ) * spacing) :=
  (C7_card_positions rooms7 3 0 (by decide) (by decide)).2.2.1

/-- Cards occupying distinct columns of a grid with pitch `S` at least the
card width `w` cannot overlap horizontally. -/
theorem cellSeparation (S w : ℚ) (a b : ℚ) (hw : 0 < w) (hwS : w ≤ S)
    (hab : a + 1 ≤ b ∨ b + 1 ≤ a) :
    ¬ (a * S < b * S + w ∧ b * S < a * S + w) := by
  rintro ⟨h1, h2⟩
  have hS : 0 < S := lt_of_lt_of_le hw hwS
  rcases hab with h | h
  · nlinarith
  · nlinarith

/-- Distinct indices occupy distinct cells of the `(i % c, i / c)` grid. -/
theorem cellsNe (c i j : Nat) (hij : i ≠ j) : i % c ≠ j % c ∨ i / c ≠ j / c := by
  by_contra hcon
  push_neg at hcon
  rcases hcon with ⟨h1, h2⟩
  apply hij
  rw [← Nat.div_add_mod i c, ← Nat.div_add_mod j c, h1, h2]

/-- Two distinct packed room cards never overlap: card pitch
`spacing = 2.2` exceeds the card side `1.8` on both axes. -/
theorem pack_no_overlap (rs : List Room) (i j : Nat)
    (hi : i < rs.length) (hj : j < rs.length) (hij : i ≠ j) :
    ¬ cardsOverlap ((packCards rs).getD i dummyCard) ((packCards rs).getD j dummyCard) := by
  have hgi : (packCards rs).getD i dummyCard
      = mkCard (grid_cols rs.length) (grid_rows rs.length) i rs[i] := by
    rw [List.getD_eq_getElem?_getD, packCards_getElem?, List.getElem?_eq_getElem hi,
      Option.map_some', Option.getD_some]
  have hgj : (packCards rs).getD j dummyCard
      = mkCard (grid_cols rs.length) (grid_rows rs.length) j rs[j] := by
    rw [List.getD_eq_getElem?_getD, packCards_getElem?, List.getElem?_eq_getElem hj,
      Option.map_some', Option.getD_some]
  rw [hgi, hgj]
  intro hov
  rcases hov with ⟨h1, h2, h3, h4⟩
  rw [mkCard_x, mkCard_x, mkCard_w] at h1 h2
  rw [mkCard_y, mkCard_y, mkCard_h] at h3 h4
  have hw : (0 : ℚ) < room_width := by norm_num [room_width]
  have hwS : room_width ≤ spacing := by norm_num [room_width, spacing]
  have hh : (0 : ℚ) < room_height := by norm_num [room_height]
  rcases cellsNe (grid_cols rs.length) i j hij with hne | hne
  · refine cellSeparation spacing room_width
      ((i % grid_cols rs.length : Nat) : ℚ) ((j % grid_cols rs.length : Nat) : ℚ)
      hw hwS ?_ ⟨h1, h2⟩
    rcases Nat.lt_or_ge (i % grid_cols rs.length) (j % grid_cols rs.length) with hlt | hge
    · left
      exact_mod_cast Nat.succ_le_of_lt hlt
    · right
      have hlt2 : j % grid_cols rs.length < i % grid_cols rs.length :=
        lt_of_le_of_ne hge (Ne.symm hne)
      exact_mod_cast Nat.succ_le_of_lt hlt2
  · refine cellSeparation spacing room_height
      ((((grid_rows rs.length : ℤ) - 1 - ((i / grid_cols rs.length : Nat) : ℤ)) : ℤ) : ℚ)
      ((((grid_rows rs.length : ℤ) - 1 - ((j / grid_cols rs.length : Nat) : ℤ)) : ℤ) : ℚ)
      hh (by norm_num [room_height, spacing]) ?_ ⟨h3, h4⟩
    have hzne : ((grid_rows rs.length : ℤ) - 1 - ((i / grid_cols rs.length : Nat) : ℤ))
        ≠ ((grid_rows rs.length : ℤ) - 1 - ((j / grid_cols rs.length : Nat) : ℤ)) := by
      omega
    rcases lt_or_gt_of_ne hzne with hlt | hgt
    · left
      exact_mod_cast Int.add_one_le_iff.mpr hlt
    · right
      exact_mod_cast Int.add_one_le_iff.mpr hgt

/-- Indexing into the overflow cards. -/
theorem overflowCards_getElem? (un : List UCourse) (i : Nat) :
    (overflowCards un)[i]? = (un[i]?).map (fun c =>
      { x := ((i % 8 : Nat) : ℚ) * 3,
        y := ((((ceilDiv un.length 8 : Nat) : ℤ) - 1 - ((i / 8 : Nat) : ℤ) : ℤ) : ℚ) * (6/5),
        w := 5/2, h := 4/5, courseName := c.name : OverflowCard }) := by
  rw [overflowCards, List.getElem?_map, List.getElem?_enum]
  cases un[i]? <;> rfl

/-- Two distinct overflow cards never overlap: the horizontal pitch 3 exceeds
the width 2.5 and the vertical pitch 1.2 exceeds the height 0.8. -/
theorem overflow_no_overlap (un : List UCourse) (p q : Nat)
    (hp : p < un.length) (hq : q < un.length) (hpq : p ≠ q) :
    ¬ ocardsOverlap ((overflowCards un).getD p dummyOCard)
        ((overflowCards un).getD q dummyOCard) := by
  have hgp : (overflowCards un).getD p dummyOCard
      = { x := ((p % 8 : Nat) : ℚ) * 3,
          y := ((((ceilDiv un.length 8 : Nat) : ℤ) - 1 - ((p / 8 : Nat) : ℤ) : ℤ) : ℚ) * (6/5),
          w := 5/2, h := 4/5, courseName := un[p].name } := by
    rw [List.getD_eq_getElem?_getD, overflowCards_getElem?, List.getElem?_eq_getElem hp,
      Option.map_some', Option.getD_some]
  have hgq : (overflowCards un).getD q dummyOCard
      = { x := ((q % 8 : Nat) : ℚ) * 3,
          y := ((((ceilDiv un.length 8 : Nat) : ℤ) - 1 - ((q / 8 : Nat) : ℤ) : ℤ) : ℚ) * (6/5),
          w := 5/2, h := 4/5, courseName := un[q].name } := by
    rw [List.getD_eq_getElem?_getD, overflowCards_getElem?, List.getElem?_eq_getElem hq,
      Option.map_some', Option.getD_some]
  rw [hgp, hgq]
  rintro ⟨h1, h2, h3, h4⟩
  rcases cellsNe 8 p q hpq with hne | hne
  · refine cellSeparation 3 (5/2) ((p % 8 : Nat) : ℚ) ((q % 8 : Nat) : ℚ)
      (by norm_num) (by norm_num) ?_ ⟨h1, h2⟩
    rcases Nat.lt_or_ge (p % 8) (q % 8) with hlt | hge
    · left
      exact_mod_cast Nat.succ_le_of_lt hlt
    · right
      have hlt2 : q % 8 < p % 8 := lt_of_le_of_ne hge (Ne.symm hne)
      exact_mod_cast Nat.succ_le_of_lt hlt2
  · refine cellSeparation (6/5) (4/5)
      ((((ceilDiv un.length 8 : Nat) : ℤ) - 1 - ((p / 8 : Nat) : ℤ) : ℤ) : ℚ)
      ((((ceilDiv un.length 8 : Nat) : ℤ) - 1 - ((q / 8 : Nat) : ℤ) : ℤ) : ℚ)
      (by norm_num) (by norm_num) ?_ ⟨h3, h4⟩
    have hzne : (((ceilDiv un.length 8 : Nat) : ℤ) - 1 - ((p / 8 : Nat) : ℤ))
        ≠ (((ceilDiv un.length 8 : Nat) : ℤ) - 1 - ((q / 8 : Nat) : ℤ)) := by
      omega
    rcases lt_or_gt_of_ne hzne with hlt | hgt
    · left
      exact_mod_cast Int.add_one_le_iff.mpr hlt
    · right
      exact_mod_cast Int.add_one_le_iff.mpr hgt

/-- Every element produced by `firstOccsAux` avoids the seen accumulator. -/
theorem firstOccsAux_not_seen :
    ∀ (l seen : List String) (t : String), t ∈ firstOccsAux seen l → t ∉ seen := by
  intro l
  induction l with
  | nil => intro seen t h; simp [firstOccsAux] at h
  | cons a l ih =>
    intro seen t h
    rw [firstOccsAux] at h
    by_cases ha : a ∈ seen
    · rw [if_pos ha] at h
      exact ih seen t h
    · rw [if_neg ha] at h
      rcases List.mem_cons.mp h with rfl | h2
      · exact ha
      · intro hts
        exact (ih _ t h2) (List.mem_cons_of_mem a hts)

/-- `firstOccsAux` produces no duplicates. -/
theorem firstOccsAux_nodup : ∀ (l seen : List String), (firstOccsAux seen l).Nodup := by
  intro l
  induction l with
  | nil => intro seen; simp [firstOccsAux]
  | cons a l ih =>
    intro seen
    rw [firstOccsAux]
    by_cases ha : a ∈ seen
    · rw [if_pos ha]
      exact ih seen
    · rw [if_neg ha]
      refine List.nodup_cons.mpr ⟨?_, ih _⟩
      intro hmem
      exact (firstOccsAux_not_seen l (a :: seen) a hmem) (List.mem_cons_self a seen)

/-- Membership in `firstOccsAux`. -/
theorem mem_firstOccsAux :
    ∀ (l seen : List String) (t : String),
      t ∈ firstOccsAux seen l ↔ (t ∈ l ∧ t ∉ seen) := by
  intro l
  induction l with
  | nil => intro seen t; simp [firstOccsAux]
  | cons a l ih =>
    intro seen t
    rw [firstOccsAux]
    by_cases ha : a ∈ seen
    · rw [if_pos ha, ih]
      constructor
      · rintro ⟨h1, h2⟩
        exact ⟨List.mem_cons_of_mem a h1, h2⟩
      · rintro ⟨h1, h2⟩
        rcases List.mem_cons.mp h1 with rfl | h3
        · exact absurd ha h2
        · exact ⟨h3, h2⟩
    · rw [if_neg ha]
      simp only [List.mem_cons, ih]
      constructor
      · rintro (rfl | ⟨h1, h2⟩)
        · exact ⟨Or.inl rfl, ha⟩
        · exact ⟨Or.inr h1, fun hs => h2 (Or.inr hs)⟩
      · rintro ⟨rfl | h1, h2⟩
        · exact Or.inl rfl
        · by_cases hta : t = a
          · exact Or.inl hta
          · exact Or.inr ⟨h1, fun hs => hs.elim hta h2⟩

/-- The category keys are exactly the types present in the input. -/
theorem mem_categoryKeys (rooms : List Room) (t : String) :
    t ∈ categoryKeys rooms ↔ t ∈ rooms.map Room.type := by
  rw [categoryKeys, (List.perm_insertionSort _ _).mem_iff, firstOccs, mem_firstOccsAux]
  simp

/-- The category keys contain no duplicates. -/
theorem nodup_categoryKeys (rooms : List Room) : (categoryKeys rooms).Nodup :=
  (List.perm_insertionSort _ _).nodup_iff.mpr (firstOccsAux_nodup _ [])

/-- Summing the per-key counts of a room over duplicate-free keys. -/
theorem sum_count_filter_eq (a : Room) (rooms : List Room) :
    ∀ ts : List String, ts.Nodup →
      (ts.map (fun t => (rooms.filter (fun r => decide (r.type = t))).count a)).sum
        = if a.type ∈ ts then rooms.count a else 0 := by
  intro ts
  induction ts with
  | nil => intro _; simp
  | cons t ts ih =>
    intro hnd
    rcases List.nodup_cons.mp hnd with ⟨htn, hnd2⟩
    rw [List.map_cons, List.sum_cons, ih hnd2]
    by_cases h1 : a.type = t
    · subst h1
      rw [List.count_filter (by simp), if_neg htn, if_pos (List.mem_cons_self _ _)]
      omega
    · have hcnt : (rooms.filter (fun r => decide (r.type = t))).count a = 0 := by
        apply List.count_eq_zero.mpr
        intro hmem
        have h2 := (List.mem_filter.mp hmem).2
        simp only [decide_eq_true_eq] at h2
        exact h1 h2
      rw [hcnt]
      by_cases h2 : a.type ∈ ts
      · rw [if_pos h2, if_pos (List.mem_cons_of_mem t h2)]
        omega
      · rw [if_neg h2, if_neg (by simp [List.mem_cons, h1, h2])]

/-- The packed cards render exactly the packed rooms, in order. -/
theorem packCards_map_room (rs : List Room) : (packCards rs).map Card.room = rs := by
  rw [packCards, List.map_map]
  rw [show (Card.room ∘ fun p : Nat × Room =>
    mkCard (grid_cols rs.length) (grid_rows rs.length) p.1 p.2) = Prod.snd from rfl]
  exact List.enum_map_snd rs

/-- The regions of the figure, unfolded. -/
theorem regions_eq (rooms : List Room) (un : List UCourse) :
    (create_room_map rooms un).regions
      = (categoryKeys rooms).enum.map
          (mkRegion (num_cols (decide (0 < un.length))) rooms) := rfl

/-- Mapping a function of the snd component over an enumeration. -/
theorem enum_map_snd_comp {α β : Type} (l : List α) (g : α → β) :
    l.enum.map (fun p => g p.2) = l.map g := by
  rw [show (fun p : Nat × α => g p.2) = (g ∘ Prod.snd) from rfl, ← List.map_map,
    List.enum_map_snd]

/-- Across all regions of the figure, the rendered rooms are a permutation of
the input rooms: every room appears in exactly one card. -/
theorem cards_rooms_perm (rooms : List Room) (un : List UCourse) :
    ((create_room_map rooms un).regions.map (fun rg => rg.cards.map Card.room)).flatten.Perm
      rooms := by
  rw [regions_eq, List.map_map]
  have hmr : ((fun rg : Region => rg.cards.map Card.room)
        ∘ mkRegion (num_cols (decide (0 < un.length))) rooms)
      = ((fun t => rooms.filter (fun r => decide (r.type = t))) ∘ Prod.snd) := by
    funext p
    exact packCards_map_room _
  rw [hmr, ← List.map_map, List.enum_map_snd]
  apply List.perm_iff_count.mpr
  intro a
  rw [List.count_flatten, List.map_map]
  rw [show (List.count a ∘ fun t => rooms.filter (fun r => decide (r.type = t)))
      = (fun t => (rooms.filter (fun r => decide (r.type = t))).count a) from rfl]
  rw [sum_count_filter_eq a rooms (categoryKeys rooms) (nodup_categoryKeys rooms)]
  by_cases ha : a ∈ rooms
  · rw [if_pos ((mem_categoryKeys rooms a.type).mpr (List.mem_map_of_mem Room.type ha))]
  · rw [List.count_eq_zero.mpr ha, ite_self]

/-- Each region's cards are the packer's output on the rooms of its type. -/
theorem regions_cards_eq (rooms : List Room) (un : List UCourse) :
    (create_room_map rooms un).regions.map Region.cards
      = (categoryKeys rooms).map
          (fun t => packCards (rooms.filter (fun r => decide (r.type = t)))) := by
  rw [regions_eq, List.map_map]
  rw [show (Region.cards ∘ mkRegion (num_cols (decide (0 < un.length))) rooms)
      = ((fun t => packCards (rooms.filter (fun r => decide (r.type = t)))) ∘ Prod.snd)
    from rfl]
  rw [← List.map_map, List.enum_map_snd]

/-- C9: every room appears in exactly one card (the rooms rendered across all
regions are a permutation of the input), each region's cards are the packer's
output on that type's rooms, and no two distinct cards of the same region
overlap — neither room cards (pitch 2.2 against side 1.8) nor overflow cards
(pitch 3 against width 2.5 and pitch 1.2 against height 0.8). -/
theorem C9_partition_and_no_overlap (rooms : List Room) (un : List UCourse)
    (rs : List Room) (i j p q : Nat)
    (hi : i < rs.length) (hj : j < rs.length) (hij : i ≠ j)
    (hp : p < un.length) (hq : q < un.length) (hpq : p ≠ q) :
    ((create_room_map rooms un).regions.map (fun rg => rg.cards.map Card.room)).flatten.Perm
      rooms ∧
    (create_room_map rooms un).regions.map Region.cards
      = (categoryKeys rooms).map
          (fun t => packCards (rooms.filter (fun r => decide (r.type = t)))) ∧
    ¬ cardsOverlap ((packCards rs).getD i dummyCard) ((packCards rs).getD j dummyCard) ∧
    ¬ ocardsOverlap ((overflowCards un).getD p dummyOCard)
        ((overflowCards un).getD q dummyOCard) :=
  ⟨cards_rooms_perm rooms un, regions_cards_eq rooms un,
    pack_no_overlap rs i j hi hj hij, overflow_no_overlap un p q hp hq hpq⟩

/-- C9 witness: two same-type rooms yield two non-overlapping cards. -/
theorem C9_witness :
    ¬ cardsOverlap ((packCards rooms2).getD 0 dummyCard)
        ((packCards rooms2).getD 1 dummyCard) :=
  (C9_partition_and_no_overlap rooms2 un2 rooms2 0 1 0 1 (by decide) (by decide)
    (by decide) (by decide) (by decide) (by decide)).2.2.1
